import Mathlib

/-
Verification of the template compilation and event-emission engine of the
elastic-integration-corpus-generator-tool repository (package genlib), a
shallow embedding of:
  pkg/genlib/generator_with_custom_template.go
  pkg/genlib/generator_with_text_template.go

Template bytes are modelled as `List Char` (the templates at issue are ASCII,
so byte and char views coincide).  Go maps are modelled as association lists
with last-write-wins insertion (`insertA`), Go slices as lists, and Go's
mutable `*GenState` / `*bytes.Buffer` by explicit state passing.  A Go panic
(unchecked type assertion, close of a closed channel) is a distinguished
outcome.  The external Field Binder (pkg/genlib fields code, not part of the
two files above) is modelled from the spec as an explicit function argument.
-/

namespace genlib

/-- Template and buffer bytes, modelled as lists of characters. -/
abbrev Bytes := List Char

/-- Association-list lookup, modelling a Go map read (`m[k]`). -/
def lookupA {α : Type} : List (String × α) → String → Option α
  | [], _ => none
  | (k, v) :: rest, key => if k = key then some v else lookupA rest key

/-- Association-list insertion, modelling a Go map write (`m[k] = v`):
replace the existing entry in place, or append a new one. -/
def insertA {α : Type} : List (String × α) → String → α → List (String × α)
  | [], key, v => [(key, v)]
  | (k, w) :: rest, key, v =>
    if k = key then (key, v) :: rest else (k, w) :: insertA rest key v

/-- The error values the generators surface: `io.EOF` (end of stream), the
package-level `generateOnFieldNotInFieldsYaml` error, and a generic render
error produced by a bound emit function. -/
inductive GenErr
  | ioEOF
  | generateOnFieldNotInFieldsYaml
  | renderErr
deriving DecidableEq, Repr

/-- Result of a Go computation that can return a value, return an error, or
panic (unchecked type assertion; close of a closed channel). -/
inductive Outcome (α : Type)
  | ok (a : α)
  | error (e : GenErr)
  | panicked

/-- Map over the `ok` value of an `Outcome`. -/
def Outcome.omap {α β : Type} (f : α → β) : Outcome α → Outcome β
  | .ok a => .ok (f a)
  | .error e => .error e
  | .panicked => .panicked

/-- `GenState` from the source: the per-run mutable state owned by one
generator.  The dedup cache (Go `map[string]map[any]struct{}`) and the
cardinality cache (Go `map[string][]any`) are modelled as association lists
from field name to the list of recorded values. -/
structure GenState where
  counter : Nat
  prevCacheForDup : List (String × List Bytes)
  prevCacheCardinality : List (String × List Bytes)
deriving DecidableEq, Repr

/-- `NewGenState()`: zero counter, empty caches. -/
def NewGenState : GenState := { counter := 0, prevCacheForDup := [], prevCacheCardinality := [] }

/-! ### The tokenizer of generator_with_custom_template.go

`parseCustomTemplate` drives `regexp.MustCompile` with the pattern
group1 = a run of bytes other than opening-brace, group2 = a repeated
placeholder of shape open-open-dot-name-close-close, and iterates over
`FindAllSubmatchIndex`.  The functions below reimplement exactly what that
regexp engine computes for this fixed pattern: for each match, group1 is the
maximal brace-free run at the current position and group2 greedily consumes
consecutive placeholders, the recorded group-2 bounds being those of the last
repetition; Go's `allMatches` loop skips an empty match that abuts the end of
the previous match and otherwise advances by one byte after an empty match
(an accepted empty match always sits on an opening-brace byte, which is
single-byte UTF-8, so the one-byte advance is exact). -/

/-- Length of the maximal leading run of bytes that are not an opening brace
(the regexp's group 1). -/
def litRunLen : Bytes → Nat
  | [] => 0
  | c :: cs => if c = '{' then 0 else litRunLen cs + 1

/-- Length of the maximal leading run of bytes that are not a closing brace
(the name part of a placeholder). -/
def nonRBraceRunLen : Bytes → Nat
  | [] => 0
  | c :: cs => if c = '}' then 0 else nonRBraceRunLen cs + 1

/-- Total length of a placeholder at the head of the input: two opening
braces, a dot, at least one byte that is not a closing brace, then two
closing braces; `none` if no placeholder starts here. -/
def placeholderLen (s : Bytes) : Option Nat :=
  match s with
  | '{' :: '{' :: '.' :: rest =>
    let k := nonRBraceRunLen rest
    if k = 0 then none
    else
      match rest.drop k with
      | '}' :: '}' :: _ => some (k + 5)
      | _ => none
  | _ => none

/-- Lengths of the consecutive placeholders at the head of the input
(the regexp's repeated group 2), with fuel for termination. -/
def phLensAux : Nat → Bytes → List Nat
  | 0, _ => []
  | fuel + 1, s =>
    match placeholderLen s with
    | none => []
    | some l => l :: phLensAux fuel (s.drop l)

/-- Lengths of the consecutive placeholders at the head of the input. -/
def phLens (s : Bytes) : List Nat := phLensAux s.length s

/-- One entry of `FindAllSubmatchIndex`: the six `loc` indices (whole match,
group 1, group 2), with `-1` for an absent group, as in Go. -/
structure TokMatch where
  l0 : Int
  l1 : Int
  l2 : Int
  l3 : Int
  l4 : Int
  l5 : Int
deriving DecidableEq, Repr

/-- The leftmost match of the tokenizer pattern at position `p`. -/
def matchAt (t : Bytes) (p : Nat) : TokMatch :=
  let u := t.drop p
  let g1 := litRunLen u
  let lens := phLens (u.drop g1)
  match lens.getLast? with
  | none => ⟨p, (p + g1 : Nat), p, (p + g1 : Nat), -1, -1⟩
  | some last =>
    let e : Nat := p + g1 + lens.sum
    ⟨p, e, p, (p + g1 : Nat), (e : Int) - (last : Int), e⟩

/-- Go's `allMatches` loop: successive matches from left to right; an empty
match at the end position of the previous match is skipped; an empty match
advances the scan position by one byte, a non-empty match to its end. -/
def allSubmatchAux (t : Bytes) : Nat → Nat → Int → List TokMatch
  | 0, _, _ => []
  | fuel + 1, pos, prevMatchEnd =>
    if pos > t.length then []
    else
      let m := matchAt t pos
      if m.l1 = m.l0 then
        let rest := allSubmatchAux t fuel (pos + 1) m.l1
        if m.l0 = prevMatchEnd then rest else m :: rest
      else
        m :: allSubmatchAux t fuel m.l1.toNat m.l1

/-- `tokenizer.FindAllSubmatchIndex(template, -1)` for the fixed pattern. -/
def findAllSubmatchIndex (t : Bytes) : List TokMatch :=
  allSubmatchAux t (t.length + 1) 0 (-1)

/-- Go slice expression `t[a:b]` with `Int` endpoints (as they come from
`loc`); the indices are in range whenever the source reaches them. -/
def islice (t : Bytes) (a b : Int) : Bytes :=
  (t.drop a.toNat).take (b.toNat - a.toNat)

/-- Whether the first list is a leading segment of the second. -/
def leadsB : Bytes → Bytes → Bool
  | [], _ => true
  | _ :: _, [] => false
  | a :: as, b :: bs => a == b && leadsB as bs

/-- First position at which the pattern occurs in the list, if any. -/
def bytesIndexAux (pat : Bytes) : Bytes → Option Nat
  | [] => if pat.isEmpty then some 0 else none
  | c :: rest =>
    if leadsB pat (c :: rest) then some 0
    else (bytesIndexAux pat rest).map (fun n => n + 1)

/-- `bytes.Index(s, pat)`: position of the first occurrence, `-1` if none. -/
def bytesIndex (s pat : Bytes) : Int :=
  match bytesIndexAux pat s with
  | some n => n
  | none => -1

/-- The body of `parseCustomTemplate`'s loop over `allIndexes`, carrying the
accumulator variables `orderedFields`, `templateFieldsMap`,
`fieldPrefixBuffer`, `fieldPrefixPreviousN` and `trimTrailingTemplateN`. -/
def parseCTLoop (t : Bytes) :
    List TokMatch → List String → List (String × Bytes) → Bytes → Nat → Nat →
    List String × List (String × Bytes) × Bytes
  | [], ordered, m, buffer, _, _ => (ordered, m, buffer)
  | loc :: rest, ordered, m, buffer, prevN, trimN =>
    let fieldName : Bytes :=
      if loc.l4 > -1 && loc.l5 > -1 then islice t (loc.l4 + 3) (loc.l5 - 2) else []
    let fieldPre : Bytes :=
      if loc.l2 > -1 && loc.l3 > -1 then islice t loc.l2 loc.l3 else []
    if fieldName.length = 0 then
      if t.getD prevN (Char.ofNat 0) = '{' then
        parseCTLoop t rest ordered m (buffer ++ ['{']) loc.l2.toNat trimN
      else
        match rest with
        | [] => (ordered, m, t.drop trimN)
        | _ :: _ =>
          let buffer2 := buffer ++ fieldPre
          let idx := bytesIndex (t.drop trimN) buffer2
          let trimN2 := if idx > 0 then trimN + idx.toNat else trimN
          parseCTLoop t rest ordered m buffer2 loc.l2.toNat trimN2
    else
      parseCTLoop t rest (ordered ++ [String.mk fieldName])
        (insertA m (String.mk fieldName) (buffer ++ fieldPre)) [] loc.l2.toNat loc.l5.toNat

/-- `parseCustomTemplate`: ordered field names, map from field name to the
literal preceding its placeholder, and the trailing literal. -/
def parseCustomTemplate (t : Bytes) : List String × List (String × Bytes) × Bytes :=
  if t.length = 0 then ([], [], [])
  else parseCTLoop t (findAllSubmatchIndex t) [] [] [] 0 0

/-! ### The Custom-Template generator -/

/-- `emitFNotReturn`, the buffer-writing flavor of a bound emit function
(the Field Binder's output for this variant): given the generation state and
the buffer, it returns an optional error together with the updated state and
buffer.  In Go it writes through `*bytes.Buffer` and `*GenState`. -/
abbrev emitFNotReturn := GenState → Bytes → Option GenErr × GenState × Bytes

/-- One step of the compiled custom template: field name, field type, the
bound emit function, and the literal written before it (Go field `prefix`,
renamed `pfx` here). -/
structure emitter where
  fieldName : String
  fieldType : String
  emitFunc : emitFNotReturn
  pfx : Bytes

/-- A field definition as far as this engine sees it: its name and type.
The binder that turns it into an emit function is passed separately. -/
structure Field where
  name : String
  fieldType : String
deriving DecidableEq, Repr

/-- The fresh state built inside the estimators for a single field:
`NewGenState()` with that field's two cache entries initialized empty. -/
def freshStateFor (name : String) : GenState :=
  { counter := 0, prevCacheForDup := [(name, [])], prevCacheCardinality := [(name, [])] }

/-- The sample-rendering loop of `calculateTotEventsWithCustomTemplate`:
write each emitter's literal, then run its emit function against a fresh
isolated state; stop at the first error. -/
def calcSampleLoop : List emitter → Bytes → Option GenErr × Bytes
  | [], buf => (none, buf)
  | e :: rest, buf =>
    let st := freshStateFor e.fieldName
    match e.emitFunc st (buf ++ e.pfx) with
    | (some err, _, _) => (some err, buf)
    | (none, _, buf2) => calcSampleLoop rest buf2

/-- `calculateTotEventsWithCustomTemplate`: 0 means unbounded; otherwise
render one sample event with isolated per-field state and divide. -/
def calculateTotEventsWithCustomTemplate (totSize : Nat) (emitters : List emitter)
    (trailingTemplate : Bytes) : Except GenErr Nat :=
  if totSize = 0 then .ok 0
  else
    match calcSampleLoop emitters [] with
    | (some e, _) => .error e
    | (none, buf) =>
      let buf2 := buf ++ trailingTemplate
      let singleEventSize := buf2.length
      if singleEventSize = 0 then .ok 1
      else
        let totEvents := totSize / singleEventSize
        .ok (if totEvents < 1 then 1 else totEvents)

/-- The construction-time loop shared by both variants that seeds the run
state: `NewGenState()` plus one empty dedup and cardinality entry per
declared field. -/
def initState (fields : List Field) : GenState :=
  fields.foldl
    (fun s f =>
      { s with
        prevCacheForDup := insertA s.prevCacheForDup f.name []
        prevCacheCardinality := insertA s.prevCacheCardinality f.name [] })
    NewGenState

/-- Modelled from the spec: `bindField` (Field Binder, in repository code
outside the two embedded files) binds each declared field to an emit
function and stores it in `fieldMap`; the binder itself is the function
argument, and a map write models each successful bind. -/
def buildFieldMapC (fields : List Field) (binder : Field → emitFNotReturn) :
    List (String × emitFNotReturn) :=
  fields.foldl (fun m f => insertA m f.name (binder f)) []

/-- The `fieldTypes` map built during construction. -/
def fieldTypesOf (fields : List Field) : List (String × String) :=
  fields.foldl (fun m f => insertA m f.name f.fieldType) []

/-- The emitter-building loop of `NewGeneratorWithCustomTemplate`.  The Go
code runs an unchecked type assertion on `fieldMap[fieldName]`; when the
template names a field with no binding the map read yields `nil` and the
assertion panics, which `none` models here. -/
def buildEmitters (fm : List (String × emitFNotReturn)) (fts : List (String × String))
    (tfm : List (String × Bytes)) : List String → Option (List emitter)
  | [] => some []
  | name :: rest =>
    match lookupA fm name with
    | none => none
    | some f =>
      match buildEmitters fm fts tfm rest with
      | none => none
      | some es =>
        some ({ fieldName := name, fieldType := (lookupA fts name).getD "",
                emitFunc := f, pfx := (lookupA tfm name).getD [] } :: es)

/-- The compiled Custom-Template generator. -/
structure GeneratorWithCustomTemplate where
  totEvents : Nat
  emitters : List emitter
  trailingTemplate : Bytes
  state : GenState

/-- `NewGeneratorWithCustomTemplate`: tokenize, bind fields, build emitters
(possibly panicking on an unresolved template field), estimate. -/
def NewGeneratorWithCustomTemplate (template : Bytes) (fields : List Field)
    (binder : Field → emitFNotReturn) (totSize : Nat) :
    Outcome GeneratorWithCustomTemplate :=
  let parsed := parseCustomTemplate template
  let state := initState fields
  let fm := buildFieldMapC fields binder
  let fts := fieldTypesOf fields
  match buildEmitters fm fts parsed.2.1 parsed.1 with
  | none => .panicked
  | some emitters =>
    match calculateTotEventsWithCustomTemplate totSize emitters parsed.2.2 with
    | .error e => .error e
    | .ok totEvents =>
      .ok { totEvents := totEvents, emitters := emitters,
            trailingTemplate := parsed.2.2, state := state }

/-- The per-event loop of the lowercase `emit` method: write each emitter's
literal then its generated value, stopping at the first error. -/
def emitLoop : List emitter → GenState → Bytes → Option GenErr × GenState × Bytes
  | [], st, buf => (none, st, buf)
  | e :: rest, st, buf =>
    match e.emitFunc st (buf ++ e.pfx) with
    | (some err, st2, buf2) => (some err, st2, buf2)
    | (none, st2, buf2) => emitLoop rest st2 buf2

/-- The lowercase `emit` method: render one event, or signal `io.EOF` once
the bounded count is exhausted. -/
def GeneratorWithCustomTemplate.emit (gen : GeneratorWithCustomTemplate)
    (state : GenState) (buf : Bytes) : Option GenErr × GenState × Bytes :=
  if gen.totEvents = 0 ∨ state.counter < gen.totEvents then
    match emitLoop gen.emitters state buf with
    | (some e, st2, buf2) => (some e, st2, buf2)
    | (none, st2, buf2) => (none, st2, buf2 ++ gen.trailingTemplate)
  else (some .ioEOF, state, buf)

/-- `Emit`: the method first overwrites its state argument with the
generator's own state (`state = gen.state`), renders, and on success
advances the counter.  The updated generator carries the state the Go code
mutates through the pointer. -/
def GeneratorWithCustomTemplate.Emit (gen : GeneratorWithCustomTemplate)
    (argState : GenState) (buf : Bytes) :
    Option GenErr × GeneratorWithCustomTemplate × Bytes :=
  let state := gen.state
  match gen.emit state buf with
  | (some e, st2, buf2) => (some e, { gen with state := st2 }, buf2)
  | (none, st2, buf2) =>
    (none, { gen with state := { st2 with counter := st2.counter + 1 } }, buf2)

/-- `Close`: a no-op. -/
def GeneratorWithCustomTemplate.Close (_ : GeneratorWithCustomTemplate) : Option GenErr :=
  none

/-! ### The Text-Template generator

The general-purpose engine (Go `text/template`) is an external collaborator.
Its behaviour on the templates this variant feeds it is modelled from the
spec: a parsed template is a sequence of literal chunks and calls to the
registered `generate` function; executing it writes each literal and the
printed form of each `generate` result, and a `nil` function result prints
as the engine's placeholder text `<no value>` without an execution error.
The side-channel `errChan` is modelled as a boolean flag: `close(errChan)`
sets it, the `select` in `emit` reads it, and closing an already-closed
channel is a Go panic (`none` below). -/

/-- `EmitF`, the value-returning flavor of a bound emit function (the Field
Binder's output for this variant): it produces a value (modelled as the
bytes the template engine prints for it) and updates the generation state. -/
abbrev EmitF := GenState → Bytes × GenState

/-- A node of a parsed text template: a literal chunk, or a call of the
registered `generate` function on a field name. -/
inductive TplNode
  | lit (s : Bytes)
  | callGenerate (f : String)

/-- The engine's printed form of a `nil` value. -/
def noValue : Bytes := ['<', 'n', 'o', ' ', 'v', 'a', 'l', 'u', 'e', '>']

/-- Template execution with the run's `generate` closure (the one in
`templateFns`, which captures the run's `fieldMap` and the run's state): on
a missing field it closes the error channel and returns `nil`; closing a
closed channel panics (`none`). -/
def executeTpl (fm : List (String × EmitF)) :
    List TplNode → GenState → Bool → Bytes → Option (Bytes × GenState × Bool)
  | [], st, flag, buf => some (buf, st, flag)
  | TplNode.lit s :: rest, st, flag, buf => executeTpl fm rest st flag (buf ++ s)
  | TplNode.callGenerate f :: rest, st, flag, buf =>
    match lookupA fm f with
    | none => if flag then none else executeTpl fm rest st true (buf ++ noValue)
    | some bindF =>
      let r := bindF st
      executeTpl fm rest r.2 flag (buf ++ r.1)

/-- The isolated `generate` closure that
`calculateTotEventsWithTextTemplate` installs in `tempTemplateFns`: a fresh
`GenState` with the field's caches seeded, per call.  The source builds this
map but then parses the throw-away template with `templateFns` instead, so —
exactly as in the source — nothing below uses this definition. -/
def tempGenerateFn (fm : List (String × EmitF)) (field : String) (flag : Bool) :
    Option Bytes × Bool :=
  match lookupA fm field with
  | none => (none, true)
  | some bindF => (some (bindF (freshStateFor field)).1, flag)

/-- `calculateTotEventsWithTextTemplate`: 0 means unbounded; otherwise check
the error channel (before rendering, as in the source), parse a throw-away
template with `templateFns` — whose `generate` closure captures the run's
state — execute it once, and divide.  The returned state and flag are the
run state and channel as the render leaves them. -/
def calculateTotEventsWithTextTemplate (totSize : Nat) (fm : List (String × EmitF))
    (errFlag : Bool) (tpl : List TplNode) (state : GenState) :
    Outcome (Nat × GenState × Bool) :=
  if totSize = 0 then .ok (0, state, errFlag)
  else if errFlag then .error .generateOnFieldNotInFieldsYaml
  else
    match executeTpl fm tpl state errFlag [] with
    | none => .panicked
    | some (buf, st2, flag2) =>
      let singleEventSize := buf.length
      if singleEventSize = 0 then .ok (1, st2, flag2)
      else
        let totEvents := totSize / singleEventSize
        .ok ((if totEvents < 1 then 1 else totEvents), st2, flag2)

/-- The compiled Text-Template generator: the parsed template, the bound
field map its `generate` closure captures, the run state, the error-channel
flag and the bounded count. -/
structure GeneratorWithTextTemplate where
  tpl : List TplNode
  fieldMap : List (String × EmitF)
  state : GenState
  errFlag : Bool
  totEvents : Nat

/-- `NewGeneratorWithTextTemplate`: bind the declared fields, make the error
channel, run the estimator (which may mutate the run state and trip the
channel — the source renders the sample with `templateFns`), and return the
generator. -/
def NewGeneratorWithTextTemplate (tpl : List TplNode) (fields : List Field)
    (binder : Field → EmitF) (totSize : Nat) : Outcome GeneratorWithTextTemplate :=
  let state := initState fields
  let fm := fields.foldl (fun m f => insertA m f.name (binder f)) []
  let errFlag := false
  match calculateTotEventsWithTextTemplate totSize fm errFlag tpl state with
  | .panicked => .panicked
  | .error e => .error e
  | .ok r =>
    .ok { tpl := tpl, fieldMap := fm, state := r.2.1, errFlag := r.2.2, totEvents := r.1 }

/-- The lowercase `emit` method: once under the bound, a `select` on the
error channel fails fast if it was ever closed, otherwise the compiled
template executes into the buffer. -/
def GeneratorWithTextTemplate.emitInner (gen : GeneratorWithTextTemplate)
    (state : GenState) (buf : Bytes) : Option (Option GenErr × GenState × Bool × Bytes) :=
  if gen.totEvents = 0 ∨ state.counter < gen.totEvents then
    if gen.errFlag then some (some .generateOnFieldNotInFieldsYaml, state, gen.errFlag, buf)
    else
      match executeTpl gen.fieldMap gen.tpl state gen.errFlag buf with
      | none => none
      | some (buf2, st2, flag2) => some (none, st2, flag2, buf2)
  else some (some .ioEOF, state, gen.errFlag, buf)

/-- `Emit`: overwrites its state argument with the generator's own state,
renders, and on success advances the counter; `none` is a Go panic escaping
from the render. -/
def GeneratorWithTextTemplate.Emit (gen : GeneratorWithTextTemplate)
    (argState : GenState) (buf : Bytes) :
    Option (Option GenErr × GeneratorWithTextTemplate × Bytes) :=
  let state := gen.state
  match gen.emitInner state buf with
  | none => none
  | some (some e, st2, flag2, buf2) =>
    some (some e, { gen with state := st2, errFlag := flag2 }, buf2)
  | some (none, st2, flag2, buf2) =>
    some (none, { gen with state := { st2 with counter := st2.counter + 1 }, errFlag := flag2 }, buf2)

/-- `Close`: a no-op. -/
def GeneratorWithTextTemplate.Close (_ : GeneratorWithTextTemplate) : Option GenErr :=
  none

/-! ### Concrete binder outputs used by witnesses and counterexamples.
These are representative Field Binder results (the binder itself is outside
the embedded files); each is a pure function of the state it receives. -/

/-- A buffer-writing emit function that appends one fixed byte and leaves
the state alone. -/
def oneByteEmit : emitFNotReturn := fun st buf => (none, st, buf ++ ['a'])

/-- A buffer-writing emit function that appends four fixed bytes. -/
def fourByteEmit : emitFNotReturn := fun st buf => (none, st, buf ++ ['a', 'b', 'c', 'd'])

/-- Record a value in the cache entry of the given field, as the spec says
the Field Binder does for dedup/cardinality tracking. -/
def appendVal : List (String × List Bytes) → String → Bytes → List (String × List Bytes)
  | [], _, _ => []
  | (k, vs) :: rest, key, v =>
    if k = key then (k, vs ++ [v]) :: rest else (k, vs) :: appendVal rest key v

/-- Modelled from the spec: a representative value-returning bound emit
function that produces a fixed value and records it in the per-field
dedup and cardinality caches of the state it is run against. -/
def recordingEmitF (name : String) (v : Bytes) : EmitF := fun st =>
  (v, { st with prevCacheForDup := appendVal st.prevCacheForDup name v,
                prevCacheCardinality := appendVal st.prevCacheCardinality name v })

/-- A plain binder for the custom variant: every field gets `oneByteEmit`. -/
def binder0c : Field → emitFNotReturn := fun _ => oneByteEmit

/-- A plain binder for the text variant: every field gets a recording
emit function producing one fixed byte. -/
def binder0t : Field → EmitF := fun f => recordingEmitF f.name ['v']

/-! ### Iterated emission, and the behavioural predicates the claims use -/

/-- Iterate `Emit` (custom variant) `n` times from the generator's own
state, stopping at the first error; the caller-supplied state argument is
`NewGenState` (it is ignored by `Emit`). -/
def emitStepsC (g : GeneratorWithCustomTemplate) (buf : Bytes) :
    Nat → Option GenErr × GeneratorWithCustomTemplate × Bytes
  | 0 => (none, g, buf)
  | n + 1 =>
    match emitStepsC g buf n with
    | (none, g2, buf2) => g2.Emit NewGenState buf2
    | r => r

/-- Iterate `Emit` (text variant) `n` times, stopping at the first error or
panic. -/
def emitStepsT (g : GeneratorWithTextTemplate) (buf : Bytes) :
    Nat → Option (Option GenErr × GeneratorWithTextTemplate × Bytes)
  | 0 => some (none, g, buf)
  | n + 1 =>
    match emitStepsT g buf n with
    | some (none, g2, buf2) => g2.Emit NewGenState buf2
    | r => r

/-- A bound buffer-writing emit function whose renders always succeed: it
appends some bytes to the buffer (Go's `bytes.Buffer` only ever appends) and
never touches the run counter (the binder only uses the caches). -/
def GoodEmitter (e : emitter) : Prop :=
  ∀ st buf, ∃ st2 ext, e.emitFunc st buf = (none, st2, buf ++ ext) ∧ st2.counter = st.counter

/-- A value-returning bound emit function that never touches the run
counter. -/
def GoodEmitF (f : EmitF) : Prop := ∀ st, ((f st).2).counter = st.counter

/-- Number of `generate` calls in a template that name a field with no
binding in the field map. -/
def missingCount (fm : List (String × EmitF)) : List TplNode → Nat
  | [] => 0
  | TplNode.lit _ :: rest => missingCount fm rest
  | TplNode.callGenerate f :: rest =>
    (if (lookupA fm f).isSome then 0 else 1) + missingCount fm rest

/-- The generator the Text-Template construction of claim C3's scenario
returns when the size target is zero (estimation skipped). -/
def c3gen : GeneratorWithTextTemplate :=
  { tpl := [TplNode.callGenerate "x"], fieldMap := [], state := NewGenState,
    errFlag := false, totEvents := 0 }

/-- The same generator after the first `Emit` has tripped the error
channel. -/
def c3genTripped : GeneratorWithTextTemplate :=
  { tpl := [TplNode.callGenerate "x"], fieldMap := [], state := { NewGenState with counter := 1 },
    errFlag := true, totEvents := 0 }

/-! ### Claim theorems -/

/-- C7: for the input template `A{{.x}}B{{.y}}C` the tokenizer returns the
ordered field list `[x, y]`, the prefix map `x ↦ A`, `y ↦ B`, and the
trailing literal `C`. -/
theorem claim_C7 :
    parseCustomTemplate
      ['A', '{', '{', '.', 'x', '}', '}', 'B', '{', '{', '.', 'y', '}', '}', 'C'] =
      (["x", "y"], [("x", ['A']), ("y", ['B'])], ['C']) := by
  rfl

/-- C10: in both variants `Emit` ignores the caller-supplied `GenState`
argument — its first action is `state = gen.state` — so any two argument
states give identical results (bytes, error, counter advance). -/
theorem claim_C10 (gc : GeneratorWithCustomTemplate) (gt : GeneratorWithTextTemplate)
    (s1 s2 : GenState) (bufc buft : Bytes) :
    gc.Emit s1 bufc = gc.Emit s2 bufc ∧ gt.Emit s1 buft = gt.Emit s2 buft :=
  ⟨rfl, rfl⟩

/-- C9: constructing two generators of the same variant from the same
template bytes, field set, binder and size target yields identical
`totEvents` (construction is deterministic in the embedding; the only
randomness in the running system lives inside the external binder). -/
theorem claim_C9 (template : Bytes) (tpl : List TplNode) (fields : List Field)
    (bc : Field → emitFNotReturn) (bt : Field → EmitF) (totSize : Nat)
    (g1 g2 : GeneratorWithCustomTemplate) (t1 t2 : GeneratorWithTextTemplate)
    (h1 : NewGeneratorWithCustomTemplate template fields bc totSize = .ok g1)
    (h2 : NewGeneratorWithCustomTemplate template fields bc totSize = .ok g2)
    (h3 : NewGeneratorWithTextTemplate tpl fields bt totSize = .ok t1)
    (h4 : NewGeneratorWithTextTemplate tpl fields bt totSize = .ok t2) :
    g1.totEvents = g2.totEvents ∧ t1.totEvents = t2.totEvents := by
  rw [h1] at h2
  rw [h3] at h4
  injection h2 with e2
  injection h4 with e4
  exact ⟨by rw [e2], by rw [e4]⟩

/-- The generator produced by the empty custom construction of the C9
witness. -/
def cg0 : GeneratorWithCustomTemplate :=
  { totEvents := 0, emitters := [], trailingTemplate := [], state := NewGenState }

/-- The generator produced by the empty text construction of the C9
witness. -/
def tg0 : GeneratorWithTextTemplate :=
  { tpl := [], fieldMap := [], state := NewGenState, errFlag := false, totEvents := 0 }

/-- Witness for C9 at a concrete construction. -/
theorem claim_C9_witness :
    NewGeneratorWithCustomTemplate [] [] binder0c 0 = .ok cg0 ∧
    NewGeneratorWithTextTemplate [] [] binder0t 0 = .ok tg0 ∧
    (cg0.totEvents = cg0.totEvents ∧ tg0.totEvents = tg0.totEvents) :=
  ⟨rfl, rfl, claim_C9 [] [] [] binder0c binder0t 0 cg0 cg0 tg0 tg0 rfl rfl rfl rfl⟩

/-- C1 (failing evaluation): in the Text-Template variant the estimator's
sample render runs against the run's own `GenState` — the source builds the
isolated `tempTemplateFns` but parses the throw-away template with
`templateFns` — so a construction with a nonzero size target records the
sample value in the run's dedup and cardinality caches (they end up holding
`v` instead of staying empty); only the counter is left at zero. -/
theorem claim_C1_pollution :
    (NewGeneratorWithTextTemplate [TplNode.callGenerate "f"]
        [{ name := "f", fieldType := "keyword" }] binder0t 10).omap
      (fun g => (g.state.counter, g.state.prevCacheForDup, g.state.prevCacheCardinality)) =
      .ok (0, [("f", [['v']])], [("f", [['v']])]) ∧
    ([("f", [['v']])] : List (String × List Bytes)) ≠ [("f", [])] :=
  ⟨rfl, by decide⟩

/-- C4 (failing evaluation): when the single sample render of the estimator
trips the side-channel error (template references `x`, field set empty),
construction does NOT fail: the channel is only polled before the render, so
`NewGeneratorWithTextTemplate` returns a generator, already poisoned
(`errFlag = true`), with `totEvents = 1` (the sample rendered the ten-byte
`<no value>` placeholder against a ten-byte target). -/
theorem claim_C4_construction_succeeds :
    (NewGeneratorWithTextTemplate [TplNode.callGenerate "x"] [] binder0t 10).omap
      (fun g => (g.errFlag, g.totEvents)) = .ok (true, 1) :=
  rfl

/-- C2 counterexample: for the template `{{.x}}` with an empty field set,
`NewGeneratorWithCustomTemplate` does not return an error — the unchecked
type assertion `fieldMap[fieldName].(emitFNotReturn)` panics on the missing
binding. -/
theorem claim_C2_counterexample :
    NewGeneratorWithCustomTemplate ['{', '{', '.', 'x', '}', '}'] [] binder0c 0 =
      Outcome.panicked :=
  rfl

/-- C3 counterexample: size target zero, template `generate "x"`, empty
field set.  The first `Emit` whose execution reaches the undefined reference
returns success (`none`) — the engine prints `<no value>` and the counter
advances — and only the second `Emit` returns the unresolved-field error. -/
theorem claim_C3_counterexample :
    NewGeneratorWithTextTemplate [TplNode.callGenerate "x"] [] binder0t 0 = .ok c3gen ∧
    c3gen.Emit NewGenState [] = some (none, c3genTripped, noValue) ∧
    c3genTripped.Emit NewGenState [] =
      some (some GenErr.generateOnFieldNotInFieldsYaml, c3genTripped, []) :=
  ⟨rfl, rfl, rfl⟩

/-- A one-emitter list whose sample event is a single byte. -/
def em1 : emitter := { fieldName := "f", fieldType := "keyword", emitFunc := oneByteEmit, pfx := [] }

/-- A one-emitter list whose sample event is four bytes. -/
def em4 : emitter := { fieldName := "f", fieldType := "keyword", emitFunc := fourByteEmit, pfx := [] }

/-- C6 counterexample: a sample of N = 1 byte and a target of N*5 + 3 = 8
bytes gives a count of 8, not the "exactly 5" the claim's example states
(floor division only yields 5 when the sample exceeds 3 bytes). -/
theorem claim_C6_counterexample :
    calculateTotEventsWithCustomTemplate 8 [em1] [] = .ok 8 ∧ (8 : Nat) ≠ 5 :=
  ⟨rfl, by decide⟩

/-- C8 counterexample: the input `{` contains no placeholder, yet the parse
returns the trailing literal `{{` — the stray-brace branch appends an extra
opening brace once per tokenizer entry — not the input itself. -/
theorem claim_C8_counterexample :
    parseCustomTemplate ['{'] = ([], [], ['{', '{']) ∧ (['{', '{'] : Bytes) ≠ ['{'] :=
  ⟨rfl, by decide⟩

/-! ### Lemmas about association lists -/

/-- Inserting under a different key does not change a lookup. -/
theorem lookupA_insertA_ne {α : Type} (m : List (String × α)) (k key : String) (v : α)
    (h : k ≠ key) : lookupA (insertA m k v) key = lookupA m key := by
  induction m with
  | nil => simp [insertA, lookupA, h]
  | cons p rest ih =>
    obtain ⟨k', w⟩ := p
    by_cases hk : k' = k
    · subst hk
      simp [insertA, lookupA, h]
    · simp [insertA, lookupA, hk]
      split <;> simp [lookupA, ih]

/-- A key that names no field stays absent from a field-map fold. -/
theorem lookupA_foldl_insert_none {α : Type} (fields : List Field) (step : Field → α)
    (f : String) (h : ∀ fl ∈ fields, fl.name ≠ f) :
    ∀ m : List (String × α), lookupA m f = none →
      lookupA (fields.foldl (fun acc fl => insertA acc fl.name (step fl)) m) f = none := by
  induction fields with
  | nil => intro m hm; simpa using hm
  | cons fl rest ih =>
    intro m hm
    simp only [List.foldl_cons]
    refine ih (fun x hx => h x (List.mem_cons_of_mem _ hx)) _ ?_
    rw [lookupA_insertA_ne _ _ _ _ (h fl (List.mem_cons_self _ _))]
    exact hm

/-- If any requested field has no binding, the emitter-building loop ends in
the modelled panic. -/
theorem buildEmitters_none (fm : List (String × emitFNotReturn))
    (fts : List (String × String)) (tfm : List (String × Bytes)) (f : String) :
    ∀ names : List String, f ∈ names → lookupA fm f = none →
      buildEmitters fm fts tfm names = none := by
  intro names
  induction names with
  | nil => intro h; cases h
  | cons n rest ih =>
    intro hmem hnone
    rcases List.mem_cons.mp hmem with h | h
    · subst h
      simp [buildEmitters, hnone]
    · cases hn : lookupA fm n with
      | none => simp [buildEmitters, hn]
      | some g => simp [buildEmitters, hn, ih h hnone]

/-- C2 (amended): for every template with a placeholder naming a field
absent from the field definitions, `NewGeneratorWithCustomTemplate` aborts
with a panic (the unchecked type assertion on the missing binding) — it
returns neither an error value nor a partial generator, so a constructed
generator's `Emit` still never encounters an unresolved field. -/
theorem claim_C2_amended (template : Bytes) (fields : List Field)
    (binder : Field → emitFNotReturn) (totSize : Nat) (f : String)
    (hf : f ∈ (parseCustomTemplate template).1)
    (habs : ∀ fl ∈ fields, fl.name ≠ f) :
    NewGeneratorWithCustomTemplate template fields binder totSize = .panicked := by
  have h1 : lookupA (buildFieldMapC fields binder) f = none :=
    lookupA_foldl_insert_none fields binder f habs [] rfl
  have h2 : buildEmitters (buildFieldMapC fields binder) (fieldTypesOf fields)
      (parseCustomTemplate template).2.1 (parseCustomTemplate template).1 = none :=
    buildEmitters_none _ _ _ f _ hf h1
  simp only [NewGeneratorWithCustomTemplate, h2]

/-- Witness for the amended C2 at the template `{{.x}}` with no fields. -/
theorem claim_C2_witness :
    ("x" ∈ (parseCustomTemplate ['{', '{', '.', 'x', '}', '}']).1) ∧
    NewGeneratorWithCustomTemplate ['{', '{', '.', 'x', '}', '}'] [] binder0c 7 =
      Outcome.panicked :=
  ⟨by decide,
   claim_C2_amended _ [] binder0c 7 "x" (by decide) (by intro fl h; cases h)⟩

/-! ### Lemmas about template execution -/

/-- If no `generate` call in the template misses the field map, execution
succeeds and leaves the error channel as it found it. -/
theorem executeTpl_no_missing (fm : List (String × EmitF)) :
    ∀ nodes : List TplNode, missingCount fm nodes = 0 →
      ∀ st flag buf, ∃ buf2 st2, executeTpl fm nodes st flag buf = some (buf2, st2, flag) := by
  intro nodes
  induction nodes with
  | nil => intro _ st flag buf; exact ⟨buf, st, rfl⟩
  | cons n rest ih =>
    cases n with
    | lit s =>
      intro h st flag buf
      exact ih (by simpa [missingCount] using h) st flag (buf ++ s)
    | callGenerate f =>
      intro h st flag buf
      cases hl : lookupA fm f with
      | none => simp [missingCount, hl] at h
      | some ef =>
        have h2 : missingCount fm rest = 0 := by simpa [missingCount, hl] using h
        obtain ⟨buf2, st2, he⟩ := ih h2 (ef st).2 flag (buf ++ (ef st).1)
        exact ⟨buf2, st2, by simpa [executeTpl, hl] using he⟩

/-- If exactly one `generate` call misses the field map and the channel is
still open, execution succeeds (the engine prints the nil placeholder) and
closes the channel. -/
theorem executeTpl_one_missing (fm : List (String × EmitF)) :
    ∀ nodes : List TplNode, missingCount fm nodes = 1 →
      ∀ st buf, ∃ buf2 st2, executeTpl fm nodes st false buf = some (buf2, st2, true) := by
  intro nodes
  induction nodes with
  | nil => intro h; simp [missingCount] at h
  | cons n rest ih =>
    cases n with
    | lit s =>
      intro h st buf
      exact ih (by simpa [missingCount] using h) st (buf ++ s)
    | callGenerate f =>
      intro h st buf
      cases hl : lookupA fm f with
      | none =>
        have h2 : missingCount fm rest = 0 := by
          simp [missingCount, hl] at h
          omega
        obtain ⟨buf2, st2, he⟩ := executeTpl_no_missing fm rest h2 st true (buf ++ noValue)
        exact ⟨buf2, st2, by simpa [executeTpl, hl] using he⟩
      | some ef =>
        have h2 : missingCount fm rest = 1 := by simpa [missingCount, hl] using h
        obtain ⟨buf2, st2, he⟩ := ih h2 (ef st).2 (buf ++ (ef st).1)
        exact ⟨buf2, st2, by simpa [executeTpl, hl] using he⟩

/-- C3 (amended): in the Text-Template variant, a not-yet-exhausted
generator whose error channel is already tripped fails every `Emit` with the
unresolved-field error and is returned unchanged — so every subsequent
`Emit` fails identically, permanently.  However the `Emit` during which the
single undefined reference is first reached does NOT return that error: the
channel is polled before the render, so that call succeeds (printing the
engine's nil placeholder) and only trips the channel for its successors. -/
theorem claim_C3_amended (gen : GeneratorWithTextTemplate) (s : GenState) (buf : Bytes)
    (hlive : gen.totEvents = 0 ∨ gen.state.counter < gen.totEvents) :
    (gen.errFlag = true →
      gen.Emit s buf = some (some GenErr.generateOnFieldNotInFieldsYaml, gen, buf)) ∧
    (gen.errFlag = false → missingCount gen.fieldMap gen.tpl = 1 →
      ∃ gen2 buf2, gen.Emit s buf = some (none, gen2, buf2) ∧
        gen2.errFlag = true ∧ gen2.tpl = gen.tpl ∧ gen2.fieldMap = gen.fieldMap ∧
        gen2.totEvents = gen.totEvents) := by
  obtain ⟨tpl, fm, st, flag, tot⟩ := gen
  simp only at hlive
  constructor
  · intro hflag
    simp only at hflag
    subst hflag
    simp only [GeneratorWithTextTemplate.Emit, GeneratorWithTextTemplate.emitInner]
    rw [if_pos hlive]
    rfl
  · intro hflag hmiss
    simp only at hflag hmiss
    subst hflag
    obtain ⟨buf2, st2, he⟩ := executeTpl_one_missing fm tpl hmiss st buf
    refine ⟨⟨tpl, fm, { st2 with counter := st2.counter + 1 }, true, tot⟩, buf2,
      ?_, rfl, rfl, rfl, rfl⟩
    simp only [GeneratorWithTextTemplate.Emit, GeneratorWithTextTemplate.emitInner]
    rw [if_pos hlive]
    simp [he]

/-- Witness for the amended C3 at the concrete poisoned and fresh
generators of the counterexample scenario. -/
theorem claim_C3_witness :
    (c3genTripped.errFlag = true ∧
      c3genTripped.Emit NewGenState [] =
        some (some GenErr.generateOnFieldNotInFieldsYaml, c3genTripped, [])) ∧
    (c3gen.errFlag = false ∧ missingCount c3gen.fieldMap c3gen.tpl = 1 ∧
      ∃ gen2 buf2, c3gen.Emit NewGenState [] = some (none, gen2, buf2) ∧
        gen2.errFlag = true ∧ gen2.tpl = c3gen.tpl ∧ gen2.fieldMap = c3gen.fieldMap ∧
        gen2.totEvents = c3gen.totEvents) := by
  refine ⟨⟨rfl, ?_⟩, rfl, by decide, ?_⟩
  · exact (claim_C3_amended c3genTripped NewGenState [] (Or.inl rfl)).1 rfl
  · exact (claim_C3_amended c3gen NewGenState [] (Or.inl rfl)).2 rfl (by decide)

/-- C6 (amended): both estimators return 0 immediately (no rendering: any
emitters / any template, text-variant state and channel untouched) when the
target is 0; with a nonzero target, a 0-byte sample gives 1 and otherwise
the count is `max 1 (target / sampleLength)` under floor division — the
claim's example holds once the sample exceeds 3 bytes: a sample of N > 3
bytes with target N*5 + 3 gives exactly 5. -/
theorem claim_C6_amended
    (emitters : List emitter) (trailingTemplate : Bytes) (totSize : Nat) (buf : Bytes)
    (fm : List (String × EmitF)) (tpl : List TplNode) (st st2 : GenState)
    (flag : Bool) (tbuf : Bytes) (flag2 : Bool)
    (hne : totSize ≠ 0)
    (hsample : calcSampleLoop emitters [] = (none, buf))
    (htext : executeTpl fm tpl st false [] = some (tbuf, st2, flag2)) :
    calculateTotEventsWithCustomTemplate 0 emitters trailingTemplate = .ok 0 ∧
    calculateTotEventsWithTextTemplate 0 fm flag tpl st = .ok (0, st, flag) ∧
    calculateTotEventsWithCustomTemplate totSize emitters trailingTemplate =
      .ok (if (buf ++ trailingTemplate).length = 0 then 1
           else max 1 (totSize / (buf ++ trailingTemplate).length)) ∧
    calculateTotEventsWithTextTemplate totSize fm false tpl st =
      .ok ((if tbuf.length = 0 then 1 else max 1 (totSize / tbuf.length)), st2, flag2) ∧
    (3 < (buf ++ trailingTemplate).length →
      calculateTotEventsWithCustomTemplate ((buf ++ trailingTemplate).length * 5 + 3)
        emitters trailingTemplate = .ok 5) := by
  have hmax : ∀ a b : Nat, (if a / b < 1 then 1 else a / b) = max 1 (a / b) := by
    intro a b
    rw [Nat.max_def]
    split_ifs <;> omega
  have hcustom : ∀ n : Nat, n ≠ 0 →
      calculateTotEventsWithCustomTemplate n emitters trailingTemplate =
        .ok (if (buf ++ trailingTemplate).length = 0 then 1
             else max 1 (n / (buf ++ trailingTemplate).length)) := by
    intro n hn
    unfold calculateTotEventsWithCustomTemplate
    rw [if_neg hn, hsample]
    show (if (buf ++ trailingTemplate).length = 0 then (Except.ok 1 : Except GenErr Nat)
          else Except.ok (if n / (buf ++ trailingTemplate).length < 1 then 1
                          else n / (buf ++ trailingTemplate).length)) = _
    by_cases h0 : (buf ++ trailingTemplate).length = 0
    · rw [if_pos h0, if_pos h0]
    · rw [if_neg h0, if_neg h0, hmax]
  refine ⟨rfl, rfl, hcustom totSize hne, ?_, ?_⟩
  · unfold calculateTotEventsWithTextTemplate
    rw [if_neg hne, htext]
    rw [if_neg (show ¬(false = true) by decide)]
    show (if tbuf.length = 0 then Outcome.ok (1, st2, flag2)
          else Outcome.ok ((if totSize / tbuf.length < 1 then 1
                            else totSize / tbuf.length), st2, flag2)) = _
    by_cases h0 : tbuf.length = 0
    · rw [if_pos h0, if_pos h0]
    · rw [if_neg h0, if_neg h0, hmax]
  · intro hlen
    rw [hcustom _ (by omega), if_neg (by omega)]
    have hdiv : ((buf ++ trailingTemplate).length * 5 + 3) / (buf ++ trailingTemplate).length
        = 5 + 3 / (buf ++ trailingTemplate).length :=
      Nat.mul_add_div (by omega) 5 3
    rw [hdiv, Nat.div_eq_of_lt (by omega)]
    norm_num

/-- Witness for the amended C6: a four-byte sample with target 23 = 4*5 + 3
yields exactly 5, and a zero target yields 0. -/
theorem claim_C6_witness :
    calcSampleLoop [em4] [] = (none, ['a', 'b', 'c', 'd']) ∧
    calculateTotEventsWithCustomTemplate 0 [em4] [] = .ok 0 ∧
    calculateTotEventsWithCustomTemplate 23 [em4] [] = .ok 5 := by
  have h := claim_C6_amended [em4] [] 23 ['a', 'b', 'c', 'd'] [] [TplNode.lit ['z']]
    NewGenState NewGenState false ['z'] false (by decide) rfl rfl
  refine ⟨rfl, h.1, ?_⟩
  have h5 := h.2.2.2.2 (by decide)
  simpa using h5

/-! ### Lemmas about the tokenizer on brace-free templates -/

/-- On a brace-free template the literal run is the whole input. -/
theorem litRunLen_of_no_brace : ∀ t : Bytes, (∀ c ∈ t, c ≠ '{') → litRunLen t = t.length := by
  intro t
  induction t with
  | nil => intro _; rfl
  | cons c cs ih =>
    intro h
    have hc : c ≠ '{' := h c (List.mem_cons_self _ _)
    simp [litRunLen, hc, ih (fun x hx => h x (List.mem_cons_of_mem _ hx))]

/-- Past the end of the template the match loop stops. -/
theorem allSubmatchAux_oob (t : Bytes) (fuel pos : Nat) (pme : Int) (h : t.length < pos) :
    allSubmatchAux t fuel pos pme = [] := by
  cases fuel with
  | zero => rfl
  | succ k => simp [allSubmatchAux, h]

/-- The match at the end position is empty. -/
theorem matchAt_end (t : Bytes) :
    matchAt t t.length = ⟨t.length, t.length, t.length, t.length, -1, -1⟩ := by
  simp [matchAt, List.drop_length, litRunLen, phLens, phLensAux]

/-- On a brace-free template the match at position 0 covers the whole
input, with no placeholder group. -/
theorem matchAt_zero_no_brace (t : Bytes) (h : ∀ c ∈ t, c ≠ '{') :
    matchAt t 0 = ⟨0, t.length, 0, t.length, -1, -1⟩ := by
  simp only [matchAt, List.drop_zero, litRunLen_of_no_brace t h, List.drop_length]
  simp [phLens, phLensAux]

/-- On a nonempty brace-free template, the tokenizer finds exactly one
match: the whole input as a literal. -/
theorem findAll_no_brace (c : Char) (cs : Bytes) (h : ∀ x ∈ c :: cs, x ≠ '{') :
    findAllSubmatchIndex (c :: cs) =
      [⟨0, (c :: cs).length, 0, (c :: cs).length, -1, -1⟩] := by
  have hm0 := matchAt_zero_no_brace (c :: cs) h
  have hmend := matchAt_end (c :: cs)
  have hoob := allSubmatchAux_oob (c :: cs) cs.length ((c :: cs).length + 1)
    ((c :: cs).length) (by simp)
  show allSubmatchAux (c :: cs) ((c :: cs).length + 1) 0 (-1) = _
  rw [List.length_cons]
  unfold allSubmatchAux
  simp only [hm0]
  have hne : ((cs.length : Int) + 1) ≠ 0 := by omega
  rw [List.length_cons] at hmend hoob
  simp [hmend, hoob, hne, List.length_cons, allSubmatchAux]
  push_cast at hoob
  exact hoob

/-- C8 (amended): for every template containing no opening-brace byte at
all, the parse returns an empty field list, an empty map, and the whole
input unchanged as the trailing literal; the empty template returns three
empty outputs.  (With a stray opening brace but no placeholder this fails:
see the counterexample, where the brace is doubled instead.) -/
theorem claim_C8_amended (t : Bytes) (h : ∀ c ∈ t, c ≠ '{') :
    parseCustomTemplate t = ([], [], t) := by
  cases t with
  | nil => rfl
  | cons c cs =>
    have hc : ¬(c = '{') := h c (List.mem_cons_self _ _)
    unfold parseCustomTemplate
    rw [if_neg (by simp), findAll_no_brace c cs h]
    show (if (c :: cs).getD 0 (Char.ofNat 0) = '{'
          then parseCTLoop (c :: cs) [] [] [] ([] ++ ['{']) 0 0
          else ([], [], (c :: cs).drop 0)) = ([], [], c :: cs)
    have hgd : (c :: cs).getD 0 (Char.ofNat 0) = c := rfl
    rw [hgd, if_neg hc]
    rfl

/-- Witness for the amended C8 at the brace-free template `abc`. -/
theorem claim_C8_witness :
    (∀ c ∈ (['a', 'b', 'c'] : Bytes), c ≠ '{') ∧
    parseCustomTemplate ['a', 'b', 'c'] = ([], [], ['a', 'b', 'c']) :=
  ⟨by decide, claim_C8_amended ['a', 'b', 'c'] (by decide)⟩

/-! ### Lemmas for bounded emission (claim C5) -/

/-- A successful lookup comes from an entry of the list. -/
theorem lookupA_mem {α : Type} : ∀ (m : List (String × α)) (key : String) (v : α),
    lookupA m key = some v → (key, v) ∈ m := by
  intro m
  induction m with
  | nil => intro key v h; simp [lookupA] at h
  | cons p rest ih =>
    intro key v h
    obtain ⟨k, w⟩ := p
    by_cases hk : k = key
    · subst hk
      simp [lookupA] at h
      subst h
      exact List.mem_cons_self _ _
    · simp [lookupA, hk] at h
      exact List.mem_cons_of_mem _ (ih key v h)

/-- Good emitters make the emit loop succeed, appending to the buffer and
preserving the counter. -/
theorem emitLoop_good : ∀ ems : List emitter, (∀ e ∈ ems, GoodEmitter e) →
    ∀ st buf, ∃ st2 ext, emitLoop ems st buf = (none, st2, buf ++ ext) ∧
      st2.counter = st.counter := by
  intro ems
  induction ems with
  | nil => intro _ st buf; exact ⟨st, [], by simp [emitLoop], rfl⟩
  | cons e rest ih =>
    intro hg st buf
    obtain ⟨st1, ext1, he1, hc1⟩ := hg e (List.mem_cons_self _ _) st (buf ++ e.pfx)
    obtain ⟨st2, ext2, he2, hc2⟩ :=
      ih (fun x hx => hg x (List.mem_cons_of_mem _ hx)) st1 (buf ++ e.pfx ++ ext1)
    refine ⟨st2, e.pfx ++ ext1 ++ ext2, ?_, by rw [hc2, hc1]⟩
    simp only [emitLoop, he1, he2]
    simp [List.append_assoc]

/-- One successful custom `Emit` under the bound: appends bytes and bumps
the counter, leaving the compiled template alone. -/
theorem EmitC_succ (g : GeneratorWithCustomTemplate) (s : GenState) (buf : Bytes)
    (hg : ∀ e ∈ g.emitters, GoodEmitter e)
    (hlive : g.totEvents = 0 ∨ g.state.counter < g.totEvents) :
    ∃ g2 ext, g.Emit s buf = (none, g2, buf ++ ext) ∧
      g2.state.counter = g.state.counter + 1 ∧ g2.emitters = g.emitters ∧
      g2.totEvents = g.totEvents ∧ g2.trailingTemplate = g.trailingTemplate := by
  obtain ⟨st2, ext, he, hc⟩ := emitLoop_good g.emitters hg g.state buf
  refine ⟨{ g with state := { st2 with counter := st2.counter + 1 } },
    ext ++ g.trailingTemplate, ?_, by simp [hc], rfl, rfl, rfl⟩
  simp only [GeneratorWithCustomTemplate.Emit, GeneratorWithCustomTemplate.emit]
  rw [if_pos hlive, he]
  simp [List.append_assoc]

/-- An exhausted custom generator signals `io.EOF`, writing nothing and
changing nothing. -/
theorem EmitC_eof (g : GeneratorWithCustomTemplate) (s : GenState) (buf : Bytes)
    (hdead : ¬(g.totEvents = 0 ∨ g.state.counter < g.totEvents)) :
    g.Emit s buf = (some GenErr.ioEOF, g, buf) := by
  simp only [GeneratorWithCustomTemplate.Emit, GeneratorWithCustomTemplate.emit]
  rw [if_neg hdead]

/-- Invariant of iterated custom emission up to the bound. -/
theorem stepsC_inv (g : GeneratorWithCustomTemplate) (buf : Bytes)
    (hg : ∀ e ∈ g.emitters, GoodEmitter e) (h0 : g.state.counter = 0) :
    ∀ k, k ≤ g.totEvents →
      ∃ g2 ext, emitStepsC g buf k = (none, g2, buf ++ ext) ∧
        g2.state.counter = k ∧ g2.emitters = g.emitters ∧
        g2.totEvents = g.totEvents ∧ g2.trailingTemplate = g.trailingTemplate := by
  intro k
  induction k with
  | zero => intro _; exact ⟨g, [], by simp [emitStepsC], h0, rfl, rfl, rfl⟩
  | succ n ih =>
    intro hk
    obtain ⟨g2, ext, he, hc, hem, htot, htr⟩ := ih (Nat.le_of_succ_le hk)
    have hg2 : ∀ e ∈ g2.emitters, GoodEmitter e := by rw [hem]; exact hg
    have hlive : g2.totEvents = 0 ∨ g2.state.counter < g2.totEvents := by
      right
      rw [hc, htot]
      omega
    obtain ⟨g3, ext2, he3, hc3, hem3, htot3, htr3⟩ :=
      EmitC_succ g2 NewGenState (buf ++ ext) hg2 hlive
    refine ⟨g3, ext ++ ext2, ?_, by rw [hc3, hc], by rw [hem3, hem],
      by rw [htot3, htot], by rw [htr3, htr]⟩
    simp only [emitStepsC, he, he3]
    simp [List.append_assoc]

/-- Fully-bound templates with counter-preserving bindings execute
successfully, appending to the buffer, preserving counter and channel. -/
theorem executeTpl_allBound (fm : List (String × EmitF)) (hfm : ∀ p ∈ fm, GoodEmitF p.2) :
    ∀ nodes : List TplNode,
      (∀ f, TplNode.callGenerate f ∈ nodes → (lookupA fm f).isSome = true) →
      ∀ st flag buf, ∃ st2 ext,
        executeTpl fm nodes st flag buf = some (buf ++ ext, st2, flag) ∧
        st2.counter = st.counter := by
  intro nodes
  induction nodes with
  | nil => intro _ st flag buf; exact ⟨st, [], by simp [executeTpl], rfl⟩
  | cons n rest ih =>
    cases n with
    | lit s =>
      intro hb st flag buf
      obtain ⟨st2, ext, he, hc⟩ :=
        ih (fun f hf => hb f (List.mem_cons_of_mem _ hf)) st flag (buf ++ s)
      refine ⟨st2, s ++ ext, ?_, hc⟩
      show executeTpl fm rest st flag (buf ++ s) = _
      rw [he]
      simp [List.append_assoc]
    | callGenerate f =>
      intro hb st flag buf
      have hsome : (lookupA fm f).isSome = true := hb f (List.mem_cons_self _ _)
      obtain ⟨ef, hef⟩ := Option.isSome_iff_exists.mp hsome
      have hgood : GoodEmitF ef := hfm (f, ef) (lookupA_mem fm f ef hef)
      obtain ⟨st2, ext, he, hc⟩ :=
        ih (fun x hx => hb x (List.mem_cons_of_mem _ hx)) (ef st).2 flag (buf ++ (ef st).1)
      refine ⟨st2, (ef st).1 ++ ext, ?_, by rw [hc, hgood st]⟩
      simp only [executeTpl, hef]
      rw [he]
      simp [List.append_assoc]

/-- One successful text `Emit` under the bound with a fully-bound template
and an open channel. -/
theorem EmitT_succ (g : GeneratorWithTextTemplate) (s : GenState) (buf : Bytes)
    (htb : ∀ f, TplNode.callGenerate f ∈ g.tpl → (lookupA g.fieldMap f).isSome = true)
    (htg : ∀ p ∈ g.fieldMap, GoodEmitF p.2)
    (hF : g.errFlag = false)
    (hlive : g.totEvents = 0 ∨ g.state.counter < g.totEvents) :
    ∃ g2 ext, g.Emit s buf = some (none, g2, buf ++ ext) ∧
      g2.state.counter = g.state.counter + 1 ∧ g2.tpl = g.tpl ∧
      g2.fieldMap = g.fieldMap ∧ g2.errFlag = false ∧ g2.totEvents = g.totEvents := by
  obtain ⟨st2, ext, he, hc⟩ := executeTpl_allBound g.fieldMap htg g.tpl htb g.state g.errFlag buf
  rw [hF] at he
  refine ⟨{ g with state := { st2 with counter := st2.counter + 1 }, errFlag := false },
    ext, ?_, by simp [hc], rfl, rfl, rfl, rfl⟩
  simp only [GeneratorWithTextTemplate.Emit, GeneratorWithTextTemplate.emitInner, hF]
  rw [if_pos hlive]
  simp [he]

/-- An exhausted text generator signals `io.EOF`, unchanged. -/
theorem EmitT_eof (g : GeneratorWithTextTemplate) (s : GenState) (buf : Bytes)
    (hdead : ¬(g.totEvents = 0 ∨ g.state.counter < g.totEvents)) :
    g.Emit s buf = some (some GenErr.ioEOF, g, buf) := by
  simp only [GeneratorWithTextTemplate.Emit, GeneratorWithTextTemplate.emitInner]
  rw [if_neg hdead]

/-- Invariant of iterated text emission up to the bound. -/
theorem stepsT_inv (g : GeneratorWithTextTemplate) (buf : Bytes)
    (htb : ∀ f, TplNode.callGenerate f ∈ g.tpl → (lookupA g.fieldMap f).isSome = true)
    (htg : ∀ p ∈ g.fieldMap, GoodEmitF p.2)
    (hF : g.errFlag = false) (h0 : g.state.counter = 0) :
    ∀ k, k ≤ g.totEvents →
      ∃ g2 ext, emitStepsT g buf k = some (none, g2, buf ++ ext) ∧
        g2.state.counter = k ∧ g2.tpl = g.tpl ∧ g2.fieldMap = g.fieldMap ∧
        g2.errFlag = false ∧ g2.totEvents = g.totEvents := by
  intro k
  induction k with
  | zero => intro _; exact ⟨g, [], by simp [emitStepsT], h0, rfl, rfl, hF, rfl⟩
  | succ n ih =>
    intro hk
    obtain ⟨g2, ext, he, hc, htp, hfm2, hF2, htot⟩ := ih (Nat.le_of_succ_le hk)
    have htb2 : ∀ f, TplNode.callGenerate f ∈ g2.tpl → (lookupA g2.fieldMap f).isSome = true := by
      rw [htp, hfm2]; exact htb
    have htg2 : ∀ p ∈ g2.fieldMap, GoodEmitF p.2 := by rw [hfm2]; exact htg
    have hlive : g2.totEvents = 0 ∨ g2.state.counter < g2.totEvents := by
      right
      rw [hc, htot]
      omega
    obtain ⟨g3, ext2, he3, hc3, htp3, hfm3, hF3, htot3⟩ :=
      EmitT_succ g2 NewGenState (buf ++ ext) htb2 htg2 hF2 hlive
    refine ⟨g3, ext ++ ext2, ?_, by rw [hc3, hc], by rw [htp3, htp], by rw [hfm3, hfm2],
      hF3, by rw [htot3, htot]⟩
    simp only [emitStepsT, he, he3]
    simp [List.append_assoc]

/-- C5: for a generator of either variant with a bounded count `totEvents`
and a fresh counter, when every per-event render succeeds (good emitters /
a fully-bound template with counter-preserving bindings and an open
channel), the first `totEvents` calls to `Emit` all succeed and only append
bytes to the buffer, and the next call returns the `io.EOF` end-of-stream
signal with the buffer and the generator (counter included) unchanged. -/
theorem claim_C5 (gc : GeneratorWithCustomTemplate) (gt : GeneratorWithTextTemplate)
    (bufc buft : Bytes)
    (hcg : ∀ e ∈ gc.emitters, GoodEmitter e) (hc0 : gc.state.counter = 0)
    (hcT : 0 < gc.totEvents)
    (htb : ∀ f, TplNode.callGenerate f ∈ gt.tpl → (lookupA gt.fieldMap f).isSome = true)
    (htg : ∀ p ∈ gt.fieldMap, GoodEmitF p.2)
    (ht0 : gt.state.counter = 0) (htF : gt.errFlag = false) (htT : 0 < gt.totEvents) :
    (∃ g2 ext, emitStepsC gc bufc gc.totEvents = (none, g2, bufc ++ ext) ∧
      g2.state.counter = gc.totEvents ∧
      (∀ s bufe, g2.Emit s bufe = (some GenErr.ioEOF, g2, bufe))) ∧
    (∃ g2 ext, emitStepsT gt buft gt.totEvents = some (none, g2, buft ++ ext) ∧
      g2.state.counter = gt.totEvents ∧
      (∀ s bufe, g2.Emit s bufe = some (some GenErr.ioEOF, g2, bufe))) := by
  constructor
  · obtain ⟨g2, ext, he, hc, hem, htot, htr⟩ :=
      stepsC_inv gc bufc hcg hc0 gc.totEvents (le_refl _)
    refine ⟨g2, ext, he, hc, ?_⟩
    intro s bufe
    refine EmitC_eof g2 s bufe ?_
    rw [htot, hc]
    omega
  · obtain ⟨g2, ext, he, hc, htp, hfm2, hF2, htot⟩ :=
      stepsT_inv gt buft htb htg htF ht0 gt.totEvents (le_refl _)
    refine ⟨g2, ext, he, hc, ?_⟩
    intro s bufe
    refine EmitT_eof g2 s bufe ?_
    rw [htot, hc]
    omega

/-- A counter-preserving value-returning emit function for the C5
witness. -/
def constEmitF : EmitF := fun st => (['v'], st)

/-- The concrete bounded custom generator of the C5 witness. -/
def cg5 : GeneratorWithCustomTemplate :=
  { totEvents := 2, emitters := [em1], trailingTemplate := [], state := NewGenState }

/-- The concrete bounded text generator of the C5 witness. -/
def tg5 : GeneratorWithTextTemplate :=
  { tpl := [TplNode.callGenerate "f"], fieldMap := [("f", constEmitF)],
    state := NewGenState, errFlag := false, totEvents := 2 }

/-- Witness for C5 at two concrete two-event generators. -/
theorem claim_C5_witness :
    (0 < cg5.totEvents ∧ 0 < tg5.totEvents) ∧
    ((∃ g2 ext, emitStepsC cg5 [] cg5.totEvents = (none, g2, [] ++ ext) ∧
        g2.state.counter = cg5.totEvents ∧
        (∀ s bufe, g2.Emit s bufe = (some GenErr.ioEOF, g2, bufe))) ∧
      (∃ g2 ext, emitStepsT tg5 [] tg5.totEvents = some (none, g2, [] ++ ext) ∧
        g2.state.counter = tg5.totEvents ∧
        (∀ s bufe, g2.Emit s bufe = some (some GenErr.ioEOF, g2, bufe)))) := by
  refine ⟨⟨by decide, by decide⟩, ?_⟩
  refine claim_C5 cg5 tg5 [] [] ?_ rfl (by decide) ?_ ?_ rfl rfl (by decide)
  · intro e he
    simp only [cg5, List.mem_singleton] at he
    subst he
    intro st buf
    exact ⟨st, ['a'], rfl, rfl⟩
  · intro f hf
    simp only [tg5, List.mem_singleton] at hf
    cases hf
    rfl
  · intro p hp
    simp only [tg5, List.mem_singleton] at hp
    subst hp
    intro st
    rfl

end genlib
